import Mathlib

/-!
# Verification of the law-search core (query classification, fan-out, rescoring)

Shallow embedding of the search core of the repository:
* `app/services/textproc.py` — `normalize_article_query` (the Query Classifier);
* `app/services/search_service.py` — `get_indexes_by_scope`, `normalize_hit`,
  `rescore`, `multi_index_search` (Scope Resolver, Hit Normalizer, Rescorer,
  Fan-out Coordinator).

Modelling conventions:
* Python strings are `List Char` (for query parsing) or `String` (for hit
  fields); `s.data` mediates.
* Python floats (relevance scores, bonuses) are modelled as exact rationals
  `Rat`; all score arithmetic in the source is addition of non-negative
  constants, where IEEE rounding plays no role in the claims considered.
* A Python dict value that may be absent or `None` is an `Option`.
* The regex character class `\d` is modelled as ASCII `'0'..'9'` and `\s` as
  the ASCII whitespace set `[ \t\n\r\x0b\x0c]` (the spec declares ASCII digits
  a documented precondition).
-/

namespace LawSearch

/-! ## Character classes and numeral reading -/

/-- Model of the regex class `\d` (ASCII digits). -/
def isDig (c : Char) : Bool := '0' ≤ c && c ≤ '9'

/-- Model of the regex class `\s` (ASCII whitespace, as in Python's `re`). -/
def isWS (c : Char) : Bool :=
  c == ' ' || c == '\t' || c == '\n' || c == '\r' || c == '\x0b' || c == '\x0c'

/-- Python `int(s)` on a string of decimal digits. -/
def digitsToNat (l : List Char) : Nat :=
  l.foldl (fun a c => 10 * a + (c.toNat - 48)) 0

/-- Python `str.strip()`: remove whitespace from both ends. -/
def pyStrip (l : List Char) : List Char :=
  ((l.dropWhile isWS).reverse.dropWhile isWS).reverse

/-! ## The Query Classifier (`textproc.normalize_article_query`)

Each of the five regexes of the source is embedded as a deterministic
maximal-munch matcher.  This is faithful because the character classes
involved (`\d`, `\s`, the literals `제`, `조`, `의`) are pairwise disjoint,
so regex backtracking can never succeed where maximal munch fails; and the
input reaching the matchers is stripped, so Python's `$`-matches-before-a-
final-newline subtlety cannot arise. -/

/-- Greedy `(\d+)`: strip a maximal nonempty run of digits, return its value
and the remainder. -/
def parseDigits (l : List Char) : Option (Nat × List Char) :=
  let ds := l.takeWhile isDig
  if ds.isEmpty then none else some (digitsToNat ds, l.dropWhile isDig)

/-- Pattern 1: `^(\d+)$`. -/
def matchP1 (q : List Char) : Option (Nat × Option Nat) :=
  if !q.isEmpty && q.all isDig then some (digitsToNat q, none) else none

/-- Tail of patterns 2 and 4, `\s*조$`: after the digits, optional whitespace,
the literal `조`, end of string. -/
def matchJoEnd (n : Nat) (r : List Char) : Option (Nat × Option Nat) :=
  if r.dropWhile isWS = ['조'] then some (n, none) else none

/-- Second digit group of patterns 3 and 5, `\s*(\d+)$`. -/
def matchUiDigits (n : Nat) (r2 : List Char) : Option (Nat × Option Nat) :=
  match parseDigits (r2.dropWhile isWS) with
  | some (m, r3) => if r3 = [] then some (n, some m) else none
  | none => none

/-- Tail of patterns 3 and 5, `\s*조의\s*(\d+)$`: after the first digits,
optional whitespace, the literal `조의`, optional whitespace, digits, end. -/
def matchJoUiEnd (n : Nat) (r : List Char) : Option (Nat × Option Nat) :=
  match r.dropWhile isWS with
  | c1 :: c2 :: r2 => if c1 = '조' ∧ c2 = '의' then matchUiDigits n r2 else none
  | _ => none

/-- Pattern 2: `^제\s*(\d+)\s*조$`. -/
def matchP2 (q : List Char) : Option (Nat × Option Nat) :=
  match q with
  | [] => none
  | c :: rest =>
    if c = '제' then
      match parseDigits (rest.dropWhile isWS) with
      | some (n, r) => matchJoEnd n r
      | none => none
    else none

/-- Pattern 3: `^제\s*(\d+)\s*조의\s*(\d+)$`. -/
def matchP3 (q : List Char) : Option (Nat × Option Nat) :=
  match q with
  | [] => none
  | c :: rest =>
    if c = '제' then
      match parseDigits (rest.dropWhile isWS) with
      | some (n, r) => matchJoUiEnd n r
      | none => none
    else none

/-- Pattern 4: `^(\d+)\s*조$`. -/
def matchP4 (q : List Char) : Option (Nat × Option Nat) :=
  match parseDigits q with
  | some (n, r) => matchJoEnd n r
  | none => none

/-- Pattern 5: `^(\d+)\s*조의\s*(\d+)$`. -/
def matchP5 (q : List Char) : Option (Nat × Option Nat) :=
  match parseDigits q with
  | some (n, r) => matchJoUiEnd n r
  | none => none

/-- The five patterns tried in source order. -/
def classify (q : List Char) : Option (Nat × Option Nat) :=
  match matchP1 q with
  | some r => some r
  | none =>
  match matchP2 q with
  | some r => some r
  | none =>
  match matchP3 q with
  | some r => some r
  | none =>
  match matchP4 q with
  | some r => some r
  | none => matchP5 q

/-- Result dict of `normalize_article_query`.  In the source,
`is_article_query = True` always comes with `article_no` set (an `int`) and
`article_sub_no` either `None` or an `int`; `is_article_query = False` always
comes with both `None`.  The two constructors capture exactly those reachable
shapes. -/
inductive ArticleQuery where
  | citation (articleNo : Nat) (articleSubNo : Option Nat) (original : List Char)
  | keyword (original : List Char)
deriving Repr, DecidableEq

/-- `textproc.normalize_article_query`: strip, then try the five patterns in
order; `original` is the stripped query, as in the source. -/
def normalize_article_query (query : List Char) : ArticleQuery :=
  match classify (pyStrip query) with
  | some (n, m) => .citation n m (pyStrip query)
  | none => .keyword (pyStrip query)

example : normalize_article_query "218".data = .citation 218 none "218".data := by decide
example : normalize_article_query "제218조".data = .citation 218 none "제218조".data := by decide
example : normalize_article_query "제218조의2".data = .citation 218 (some 2) "제218조의2".data := by
  decide
example : normalize_article_query "218조".data = .citation 218 none "218조".data := by decide
example : normalize_article_query "218조의2".data = .citation 218 (some 2) "218조의2".data := by
  decide
example : normalize_article_query "제 218 조".data = .citation 218 none "제 218 조".data := by
  decide
example : normalize_article_query "불법행위".data = .keyword "불법행위".data := by decide

/-! ## The five citation forms, stated from the spec's words

`SpecCitation q n m` says: the (trimmed) string `q` is one of the five
citation forms, with article number `n` read from the first digit group and
sub-article number `m` read from the second digit group when present
(whitespace around digit groups tolerated). -/

/-- A (possibly empty) run of whitespace. -/
def wsRun (l : List Char) : Prop := ∀ c ∈ l, isWS c = true

/-- A nonempty run of digits. -/
def digRun (l : List Char) : Prop := l ≠ [] ∧ ∀ c ∈ l, isDig c = true

/-- Citation form 1: pure digits, e.g. `"218"`. -/
def Form1 (q : List Char) (n : Nat) (m : Option Nat) : Prop :=
  digRun q ∧ n = digitsToNat q ∧ m = none

/-- Citation form 2: `제` + digits + `조`, e.g. `"제218조"`. -/
def Form2 (q : List Char) (n : Nat) (m : Option Nat) : Prop :=
  ∃ w1 d w2, wsRun w1 ∧ digRun d ∧ wsRun w2 ∧
    q = '제' :: (w1 ++ d ++ w2 ++ ['조']) ∧ n = digitsToNat d ∧ m = none

/-- Citation form 3: `제` + digits + `조의` + digits, e.g. `"제218조의2"`. -/
def Form3 (q : List Char) (n : Nat) (m : Option Nat) : Prop :=
  ∃ w1 d w2 w3 e, wsRun w1 ∧ digRun d ∧ wsRun w2 ∧ wsRun w3 ∧ digRun e ∧
    q = '제' :: (w1 ++ d ++ w2 ++ '조' :: '의' :: (w3 ++ e)) ∧
    n = digitsToNat d ∧ m = some (digitsToNat e)

/-- Citation form 4: digits + `조`, e.g. `"218조"`. -/
def Form4 (q : List Char) (n : Nat) (m : Option Nat) : Prop :=
  ∃ d w2, digRun d ∧ wsRun w2 ∧
    q = d ++ w2 ++ ['조'] ∧ n = digitsToNat d ∧ m = none

/-- Citation form 5: digits + `조의` + digits, e.g. `"218조의2"`. -/
def Form5 (q : List Char) (n : Nat) (m : Option Nat) : Prop :=
  ∃ d w2 w3 e, digRun d ∧ wsRun w2 ∧ wsRun w3 ∧ digRun e ∧
    q = d ++ w2 ++ '조' :: '의' :: (w3 ++ e) ∧
    n = digitsToNat d ∧ m = some (digitsToNat e)

/-- The claim's characterisation of a citation query. -/
def SpecCitation (q : List Char) (n : Nat) (m : Option Nat) : Prop :=
  Form1 q n m ∨ Form2 q n m ∨ Form3 q n m ∨ Form4 q n m ∨ Form5 q n m

/-! ## Helper lemmas: character classes are disjoint, maximal-munch algebra -/

/-- The first character of `l` (if any) does not satisfy `p`. -/
def headNot (p : Char → Bool) : List Char → Prop
  | [] => True
  | c :: _ => p c = false

lemma isDig_false_of_isWS {c : Char} (h : isWS c = true) : isDig c = false := by
  unfold isWS at h
  simp only [Bool.or_eq_true, beq_iff_eq] at h
  rcases h with ((((h | h) | h) | h) | h) | h <;> subst h <;> decide

lemma isWS_false_of_isDig {c : Char} (h : isDig c = true) : isWS c = false := by
  cases hw : isWS c
  · rfl
  · rw [isDig_false_of_isWS hw] at h
    cases h

lemma headNot_dropWhile (p : Char → Bool) (l : List Char) : headNot p (l.dropWhile p) := by
  induction l with
  | nil => trivial
  | cons c t ih =>
    by_cases h : p c
    · rw [List.dropWhile_cons_of_pos h]
      exact ih
    · rw [List.dropWhile_cons_of_neg h]
      simpa [headNot] using h

lemma takeWhile_eq_nil_of_headNot {p : Char → Bool} {r : List Char}
    (h : headNot p r) : r.takeWhile p = [] := by
  cases r with
  | nil => rfl
  | cons c t => exact List.takeWhile_cons_of_neg (by simpa [headNot] using h)

lemma dropWhile_eq_self_of_headNot {p : Char → Bool} {r : List Char}
    (h : headNot p r) : r.dropWhile p = r := by
  cases r with
  | nil => rfl
  | cons c t => exact List.dropWhile_cons_of_neg (by simpa [headNot] using h)

lemma wsRun_takeWhile (l : List Char) : wsRun (l.takeWhile isWS) := by
  intro c hc
  exact List.mem_takeWhile_imp hc

lemma headNot_isWS_of_digRun {d r : List Char} (hd : digRun d) : headNot isWS (d ++ r) := by
  obtain ⟨hne, hall⟩ := hd
  cases d with
  | nil => exact absurd rfl hne
  | cons c t =>
    simpa [headNot] using isWS_false_of_isDig (hall c (by simp))

lemma headNot_isDig_append {w r : List Char} (hw : wsRun w) (hr : headNot isDig r) :
    headNot isDig (w ++ r) := by
  cases w with
  | nil => simpa using hr
  | cons c t =>
    simpa [headNot] using isDig_false_of_isWS (hw c (by simp))

/-- Computing `dropWhile isWS` over an explicit whitespace/non-whitespace split. -/
lemma dropWhile_ws_eq {w r : List Char} (hw : wsRun w) (hr : headNot isWS r) :
    (w ++ r).dropWhile isWS = r := by
  rw [List.dropWhile_append_of_pos hw, dropWhile_eq_self_of_headNot hr]

/-- Computing `parseDigits` over an explicit digit/non-digit split. -/
lemma parseDigits_eq {d r : List Char} (hd : digRun d) (hr : headNot isDig r) :
    parseDigits (d ++ r) = some (digitsToNat d, r) := by
  obtain ⟨hne, hall⟩ := hd
  have ht : (d ++ r).takeWhile isDig = d := by
    rw [List.takeWhile_append_of_pos hall, takeWhile_eq_nil_of_headNot hr, List.append_nil]
  have hdr : (d ++ r).dropWhile isDig = r := by
    rw [List.dropWhile_append_of_pos hall, dropWhile_eq_self_of_headNot hr]
  unfold parseDigits
  rw [ht, hdr]
  simp [hne]

/-- Inversion for `parseDigits`. -/
lemma parseDigits_some {l : List Char} {n : Nat} {r : List Char}
    (h : parseDigits l = some (n, r)) :
    ∃ d, digRun d ∧ headNot isDig r ∧ l = d ++ r ∧ n = digitsToNat d := by
  unfold parseDigits at h
  by_cases he : (l.takeWhile isDig).isEmpty
  · simp [he] at h
  · simp only [he, if_false, Option.some.injEq, Prod.mk.injEq] at h
    obtain ⟨rfl, rfl⟩ := h
    refine ⟨l.takeWhile isDig, ⟨?_, ?_⟩, headNot_dropWhile isDig l,
      (List.takeWhile_append_dropWhile ..).symm, rfl⟩
    · simpa [List.isEmpty_iff] using he
    · intro c hc
      exact List.mem_takeWhile_imp hc

/-- Split any list into its maximal whitespace prefix and the rest. -/
lemma ws_split (l : List Char) :
    ∃ w, wsRun w ∧ headNot isWS (l.dropWhile isWS) ∧ l = w ++ l.dropWhile isWS := by
  exact ⟨l.takeWhile isWS, wsRun_takeWhile l, headNot_dropWhile isWS l,
    (List.takeWhile_append_dropWhile ..).symm⟩

lemma headNot_nil {p : Char → Bool} : headNot p [] := trivial

lemma headNot_cons {p : Char → Bool} {c : Char} {l : List Char} (h : p c = false) :
    headNot p (c :: l) := h

lemma headNot_isWS_of_digRun' {d : List Char} (hd : digRun d) : headNot isWS d := by
  obtain ⟨hne, hall⟩ := hd
  cases d with
  | nil => exact absurd rfl hne
  | cons c t => exact headNot_cons (isWS_false_of_isDig (hall c (by simp)))

lemma parseDigits_all {d : List Char} (hd : digRun d) :
    parseDigits d = some (digitsToNat d, []) := by
  simpa using parseDigits_eq hd headNot_nil

/-! ## Pattern/form correspondence -/

lemma matchJoEnd_some {n : Nat} {r : List Char} {n' : Nat} {m : Option Nat}
    (h : matchJoEnd n r = some (n', m)) :
    ∃ w2, wsRun w2 ∧ r = w2 ++ ['조'] ∧ n' = n ∧ m = none := by
  unfold matchJoEnd at h
  by_cases hc : r.dropWhile isWS = ['조']
  · rw [if_pos hc] at h
    obtain ⟨hn, hm⟩ : n = n' ∧ none = m := by
      simpa using h
    obtain ⟨w, hw, _, hsplit⟩ := ws_split r
    exact ⟨w, hw, by rw [hsplit, hc], hn.symm, hm.symm⟩
  · rw [if_neg hc] at h
    cases h

lemma matchJoEnd_eq (n : Nat) {w2 : List Char} (hw : wsRun w2) :
    matchJoEnd n (w2 ++ ['조']) = some (n, none) := by
  unfold matchJoEnd
  rw [dropWhile_ws_eq hw (headNot_cons (by decide))]
  simp

lemma matchUiDigits_some {n : Nat} {r2 : List Char} {n' : Nat} {m : Option Nat}
    (h : matchUiDigits n r2 = some (n', m)) :
    ∃ w3 e, wsRun w3 ∧ digRun e ∧ r2 = w3 ++ e ∧ n' = n ∧ m = some (digitsToNat e) := by
  unfold matchUiDigits at h
  split at h
  next m' r3 heq2 =>
    by_cases hr3 : r3 = []
    · rw [if_pos hr3] at h
      subst hr3
      obtain ⟨hn, hm⟩ : n = n' ∧ some m' = m := by
        simpa using h
      obtain ⟨e, he, _, hsplit2, rfl⟩ := parseDigits_some heq2
      rw [List.append_nil] at hsplit2
      obtain ⟨w3, hw3, _, hsplit3⟩ := ws_split r2
      exact ⟨w3, e, hw3, he, by rw [hsplit3, hsplit2], hn.symm, hm.symm⟩
    · rw [if_neg hr3] at h
      cases h
  next => cases h

lemma matchUiDigits_eq (n : Nat) {w3 e : List Char} (hw3 : wsRun w3) (he : digRun e) :
    matchUiDigits n (w3 ++ e) = some (n, some (digitsToNat e)) := by
  unfold matchUiDigits
  rw [dropWhile_ws_eq hw3 (headNot_isWS_of_digRun' he), parseDigits_all he]
  simp

lemma matchJoUiEnd_some {n : Nat} {r : List Char} {n' : Nat} {m : Option Nat}
    (h : matchJoUiEnd n r = some (n', m)) :
    ∃ w2 w3 e, wsRun w2 ∧ wsRun w3 ∧ digRun e ∧
      r = w2 ++ '조' :: '의' :: (w3 ++ e) ∧ n' = n ∧ m = some (digitsToNat e) := by
  unfold matchJoUiEnd at h
  split at h
  next c1 c2 r2 heq =>
    by_cases hc : c1 = '조' ∧ c2 = '의'
    · rw [if_pos hc] at h
      obtain ⟨rfl, rfl⟩ := hc
      obtain ⟨w3, e, hw3, he, hsplit2, hn, hm⟩ := matchUiDigits_some h
      obtain ⟨w2, hw2, _, hsplitr⟩ := ws_split r
      refine ⟨w2, w3, e, hw2, hw3, he, ?_, hn, hm⟩
      rw [hsplitr, heq, hsplit2]
    · rw [if_neg hc] at h
      cases h
  next => cases h

lemma matchJoUiEnd_eq (n : Nat) {w2 w3 e : List Char}
    (hw2 : wsRun w2) (hw3 : wsRun w3) (he : digRun e) :
    matchJoUiEnd n (w2 ++ '조' :: '의' :: (w3 ++ e)) = some (n, some (digitsToNat e)) := by
  unfold matchJoUiEnd
  rw [dropWhile_ws_eq hw2 (headNot_cons (by decide))]
  show (if ('조' : Char) = '조' ∧ ('의' : Char) = '의'
      then matchUiDigits n (w3 ++ e) else none) = some (n, some (digitsToNat e))
  rw [if_pos ⟨rfl, rfl⟩, matchUiDigits_eq n hw3 he]

lemma matchP1_some_iff {q : List Char} {n : Nat} {m : Option Nat} :
    matchP1 q = some (n, m) ↔ Form1 q n m := by
  unfold matchP1 Form1 digRun
  by_cases hc : (!q.isEmpty && q.all isDig) = true
  · rw [if_pos hc]
    simp only [Bool.and_eq_true, Bool.not_eq_true', List.isEmpty_eq_false,
      List.all_eq_true] at hc
    constructor
    · intro h
      obtain ⟨rfl, rfl⟩ : digitsToNat q = n ∧ none = m := by simpa using h
      exact ⟨hc, rfl, rfl⟩
    · rintro ⟨_, rfl, rfl⟩
      rfl
  · rw [if_neg hc]
    constructor
    · intro h
      cases h
    · rintro ⟨⟨hne, hall⟩, rfl, rfl⟩
      apply absurd _ hc
      simp only [Bool.and_eq_true, Bool.not_eq_true', List.isEmpty_eq_false,
        List.all_eq_true]
      exact ⟨hne, hall⟩

lemma matchP2_some {q : List Char} {n : Nat} {m : Option Nat}
    (h : matchP2 q = some (n, m)) : Form2 q n m := by
  unfold matchP2 at h
  split at h
  next => cases h
  next c rest =>
    by_cases hc : c = '제'
    · subst hc
      rw [if_pos rfl] at h
      split at h
      next n1 r heq =>
        obtain ⟨w2, hw2, hr, rfl, rfl⟩ := matchJoEnd_some h
        obtain ⟨d, hd, _, hsplit, rfl⟩ := parseDigits_some heq
        obtain ⟨w1, hw1, _, hsplit1⟩ := ws_split rest
        refine ⟨w1, d, w2, hw1, hd, hw2, ?_, rfl, rfl⟩
        rw [hsplit1, hsplit, hr]
        simp [List.append_assoc]
      next => cases h
    · rw [if_neg hc] at h
      cases h

lemma matchP2_of_form2 {q : List Char} {n : Nat} {m : Option Nat}
    (h : Form2 q n m) : matchP2 q = some (n, m) := by
  obtain ⟨w1, d, w2, hw1, hd, hw2, rfl, rfl, rfl⟩ := h
  show (if ('제' : Char) = '제'
      then match parseDigits ((w1 ++ d ++ w2 ++ ['조']).dropWhile isWS) with
        | some (n, r) => matchJoEnd n r
        | none => none
      else none) = some (digitsToNat d, none)
  rw [if_pos rfl, List.append_assoc, List.append_assoc,
    dropWhile_ws_eq hw1 (headNot_isWS_of_digRun hd)]
  rw [parseDigits_eq hd (headNot_isDig_append hw2 (headNot_cons (by decide)))]
  exact matchJoEnd_eq _ hw2

/-- `matchP3` on a string starting with `제`, by iota reduction. -/
lemma matchP3_je (rest : List Char) :
    matchP3 ('제' :: rest) = (match parseDigits (rest.dropWhile isWS) with
      | some (n, r) => matchJoUiEnd n r
      | none => none) := rfl

lemma matchP3_some {q : List Char} {n : Nat} {m : Option Nat}
    (h : matchP3 q = some (n, m)) : Form3 q n m := by
  unfold matchP3 at h
  split at h
  next => cases h
  next c rest =>
    by_cases hc : c = '제'
    · subst hc
      rw [if_pos rfl] at h
      split at h
      next n1 r heq =>
        obtain ⟨w2, w3, e, hw2, hw3, he, hr, rfl, rfl⟩ := matchJoUiEnd_some h
        obtain ⟨d, hd, _, hsplit, rfl⟩ := parseDigits_some heq
        obtain ⟨w1, hw1, _, hsplit1⟩ := ws_split rest
        refine ⟨w1, d, w2, w3, e, hw1, hd, hw2, hw3, he, ?_, rfl, rfl⟩
        rw [hsplit1, hsplit, hr]
        simp [List.append_assoc]
      next => cases h
    · rw [if_neg hc] at h
      cases h

lemma matchP3_of_form3 {q : List Char} {n : Nat} {m : Option Nat}
    (h : Form3 q n m) : matchP3 q = some (n, m) := by
  obtain ⟨w1, d, w2, w3, e, hw1, hd, hw2, hw3, he, rfl, rfl, rfl⟩ := h
  rw [matchP3_je, List.append_assoc, List.append_assoc,
    dropWhile_ws_eq hw1 (headNot_isWS_of_digRun hd),
    parseDigits_eq hd (headNot_isDig_append hw2 (headNot_cons (by decide)))]
  exact matchJoUiEnd_eq _ hw2 hw3 he

lemma matchP4_some {q : List Char} {n : Nat} {m : Option Nat}
    (h : matchP4 q = some (n, m)) : Form4 q n m := by
  unfold matchP4 at h
  split at h
  next n1 r heq =>
    obtain ⟨w2, hw2, hr, rfl, rfl⟩ := matchJoEnd_some h
    obtain ⟨d, hd, _, hsplit, rfl⟩ := parseDigits_some heq
    refine ⟨d, w2, hd, hw2, ?_, rfl, rfl⟩
    rw [hsplit, hr]
    simp [List.append_assoc]
  next => cases h

lemma matchP4_of_form4 {q : List Char} {n : Nat} {m : Option Nat}
    (h : Form4 q n m) : matchP4 q = some (n, m) := by
  obtain ⟨d, w2, hd, hw2, rfl, rfl, rfl⟩ := h
  unfold matchP4
  rw [List.append_assoc,
    parseDigits_eq hd (headNot_isDig_append hw2 (headNot_cons (by decide)))]
  exact matchJoEnd_eq _ hw2

lemma matchP5_some {q : List Char} {n : Nat} {m : Option Nat}
    (h : matchP5 q = some (n, m)) : Form5 q n m := by
  unfold matchP5 at h
  split at h
  next n1 r heq =>
    obtain ⟨w2, w3, e, hw2, hw3, he, hr, rfl, rfl⟩ := matchJoUiEnd_some h
    obtain ⟨d, hd, _, hsplit, rfl⟩ := parseDigits_some heq
    refine ⟨d, w2, w3, e, hd, hw2, hw3, he, ?_, rfl, rfl⟩
    rw [hsplit, hr]
    simp [List.append_assoc]
  next => cases h

lemma matchP5_of_form5 {q : List Char} {n : Nat} {m : Option Nat}
    (h : Form5 q n m) : matchP5 q = some (n, m) := by
  obtain ⟨d, w2, w3, e, hd, hw2, hw3, he, rfl, rfl, rfl⟩ := h
  unfold matchP5
  rw [List.append_assoc,
    parseDigits_eq hd (headNot_isDig_append hw2 (headNot_cons (by decide)))]
  exact matchJoUiEnd_eq _ hw2 hw3 he

/-! ## Cross-pattern exclusion (needed for the try-in-order cascade) -/

lemma matchP1_none_of_mem_notDig {q : List Char} {c : Char} (hc : c ∈ q)
    (h : isDig c = false) : matchP1 q = none := by
  unfold matchP1
  have hall : q.all isDig = false := List.all_eq_false.mpr ⟨c, hc, by simp [h]⟩
  simp [hall]

lemma matchP2_none_cons {c : Char} {rest : List Char} (h : ¬ c = '제') :
    matchP2 (c :: rest) = none := by
  simp [matchP2, h]

lemma matchP3_none_cons {c : Char} {rest : List Char} (h : ¬ c = '제') :
    matchP3 (c :: rest) = none := by
  simp [matchP3, h]

lemma matchJoEnd_none_joui (n : Nat) {w2 : List Char} (r : List Char) (hw2 : wsRun w2) :
    matchJoEnd n (w2 ++ '조' :: '의' :: r) = none := by
  unfold matchJoEnd
  rw [dropWhile_ws_eq hw2 (headNot_cons (by decide)), if_neg (by simp)]

lemma matchP2_none_of_form3 {q : List Char} {n : Nat} {m : Option Nat}
    (h : Form3 q n m) : matchP2 q = none := by
  obtain ⟨w1, d, w2, w3, e, hw1, hd, hw2, hw3, he, rfl, -, -⟩ := h
  show (if ('제' : Char) = '제'
      then match parseDigits (((w1 ++ d ++ w2 ++ '조' :: '의' :: (w3 ++ e))).dropWhile isWS) with
        | some (n, r) => matchJoEnd n r
        | none => none
      else none) = none
  rw [if_pos rfl, List.append_assoc, List.append_assoc,
    dropWhile_ws_eq hw1 (headNot_isWS_of_digRun hd),
    parseDigits_eq hd (headNot_isDig_append hw2 (headNot_cons (by decide)))]
  exact matchJoEnd_none_joui _ _ hw2

lemma matchP4_none_of_form5 {q : List Char} {n : Nat} {m : Option Nat}
    (h : Form5 q n m) : matchP4 q = none := by
  obtain ⟨d, w2, w3, e, hd, hw2, hw3, he, rfl, -, -⟩ := h
  unfold matchP4
  rw [List.append_assoc,
    parseDigits_eq hd (headNot_isDig_append hw2 (headNot_cons (by decide)))]
  exact matchJoEnd_none_joui _ _ hw2

/-- The cascade of the five patterns, tried in source order, recognises
exactly the spec's five citation forms. -/
lemma classify_some_iff {q : List Char} {n : Nat} {m : Option Nat} :
    classify q = some (n, m) ↔ SpecCitation q n m := by
  constructor
  · intro h
    unfold classify at h
    split at h
    next r heq =>
      obtain rfl : r = (n, m) := by simpa using h
      exact Or.inl (matchP1_some_iff.mp heq)
    next =>
      split at h
      next r heq =>
        obtain rfl : r = (n, m) := by simpa using h
        exact Or.inr (Or.inl (matchP2_some heq))
      next =>
        split at h
        next r heq =>
          obtain rfl : r = (n, m) := by simpa using h
          exact Or.inr (Or.inr (Or.inl (matchP3_some heq)))
        next =>
          split at h
          next r heq =>
            obtain rfl : r = (n, m) := by simpa using h
            exact Or.inr (Or.inr (Or.inr (Or.inl (matchP4_some heq))))
          next =>
            exact Or.inr (Or.inr (Or.inr (Or.inr (matchP5_some h))))
  · intro hs
    rcases hs with h1 | h2 | h3 | h4 | h5
    · unfold classify
      rw [matchP1_some_iff.mpr h1]
    · have hp1 : matchP1 q = none := by
        obtain ⟨w1, d, w2, _, _, _, hq, -, -⟩ := h2
        exact matchP1_none_of_mem_notDig (c := '제') (by rw [hq]; simp) (by decide)
      unfold classify
      rw [hp1, matchP2_of_form2 h2]
    · have hp1 : matchP1 q = none := by
        obtain ⟨w1, d, w2, w3, e, _, _, _, _, _, hq, -, -⟩ := h3
        exact matchP1_none_of_mem_notDig (c := '제') (by rw [hq]; simp) (by decide)
      unfold classify
      rw [hp1, matchP2_none_of_form3 h3, matchP3_of_form3 h3]
    · have hf4 := h4
      obtain ⟨d, w2, hd, hw2, hq, -, -⟩ := h4
      obtain ⟨hne, hall⟩ := hd
      have hp1 : matchP1 q = none :=
        matchP1_none_of_mem_notDig (c := '조') (by rw [hq]; simp) (by decide)
      cases d with
      | nil => exact absurd rfl hne
      | cons c t =>
        have hcd : isDig c = true := hall c (by simp)
        have hc : ¬ c = '제' := by
          intro hcc
          subst hcc
          exact absurd hcd (by decide)
        have hq' : q = c :: (t ++ w2 ++ ['조']) := by
          rw [hq]
          simp [List.append_assoc]
        have hp2 : matchP2 q = none := by
          rw [hq']
          exact matchP2_none_cons hc
        have hp3 : matchP3 q = none := by
          rw [hq']
          exact matchP3_none_cons hc
        unfold classify
        rw [hp1, hp2, hp3, matchP4_of_form4 hf4]
    · have hf5 := h5
      obtain ⟨d, w2, w3, e, hd, hw2, hw3, he, hq, -, -⟩ := h5
      obtain ⟨hne, hall⟩ := hd
      have hp1 : matchP1 q = none :=
        matchP1_none_of_mem_notDig (c := '조') (by rw [hq]; simp) (by decide)
      cases d with
      | nil => exact absurd rfl hne
      | cons c t =>
        have hcd : isDig c = true := hall c (by simp)
        have hc : ¬ c = '제' := by
          intro hcc
          subst hcc
          exact absurd hcd (by decide)
        have hq' : q = c :: (t ++ w2 ++ '조' :: '의' :: (w3 ++ e)) := by
          rw [hq]
          simp [List.append_assoc]
        have hp2 : matchP2 q = none := by
          rw [hq']
          exact matchP2_none_cons hc
        have hp3 : matchP3 q = none := by
          rw [hq']
          exact matchP3_none_cons hc
        unfold classify
        rw [hp1, hp2, hp3, matchP4_none_of_form5 hf5, matchP5_of_form5 hf5]

/-- C2.  Query Classifier correctness and totality: on every trimmed input
string, the classifier marks exactly the five citation forms (`SpecCitation`)
as citation queries, extracting `articleNo` from the first digit group and
`articleSubNo` from the second when present; every other string is a keyword
query.  Totality holds by construction: `normalize_article_query` is a total
function returning either a `citation` or a `keyword` result. -/
theorem classifier_correct (q : List Char) (hq : pyStrip q = q) :
    (∀ n m, normalize_article_query q = .citation n m q ↔ SpecCitation q n m) ∧
    (normalize_article_query q = .keyword q ↔ ∀ n m, ¬ SpecCitation q n m) := by
  unfold normalize_article_query
  rw [hq]
  constructor
  · intro n m
    constructor
    · intro h
      cases hcl : classify q with
      | some r =>
        obtain ⟨n', m'⟩ := r
        rw [hcl] at h
        obtain ⟨rfl, rfl⟩ : n' = n ∧ m' = m := by
          simpa [ArticleQuery.citation.injEq] using h
        exact classify_some_iff.mp hcl
      | none =>
        rw [hcl] at h
        cases h
    · intro hs
      rw [classify_some_iff.mpr hs]
  · cases hcl : classify q with
    | some r =>
      obtain ⟨n, m⟩ := r
      constructor
      · intro h
        simp at h
      · intro h
        exact absurd (classify_some_iff.mp hcl) (h n m)
    | none =>
      constructor
      · intro _ n m hs
        have := classify_some_iff.mpr hs
        rw [hcl] at this
        cases this
      · intro _
        rfl

/-- Witness for C2: the theorem applied to the concrete trimmed query
`"제218조"`. -/
theorem classifier_correct_witness :
    (∀ n m, normalize_article_query "제218조".data = .citation n m "제218조".data ↔
      SpecCitation "제218조".data n m) ∧
    (normalize_article_query "제218조".data = .keyword "제218조".data ↔
      ∀ n m, ¬ SpecCitation "제218조".data n m) :=
  classifier_correct "제218조".data (by decide)

/-! ## Data model of the search service (`search_service.py`)

`RawHit` models the as-received Meilisearch hit record: every field may be
absent (`none` ≙ the dict key is missing).  `NormHit` models the dict built
by `normalize_hit`: all keys present, `_rankingScore` carried over verbatim
and therefore possibly `None` (`none`). -/

structure RawHit where
  lawCode : Option String
  articleNo : Option Int
  articleSubNo : Option Int
  joCode : Option String
  heading : Option String
  body : Option String
  rankingScore : Option Rat
deriving Repr, DecidableEq

structure NormHit where
  lawCode : String
  index : String
  articleNo : Int
  articleSubNo : Int
  joCode : String
  heading : String
  body : String
  rankingScore : Option Rat
deriving Repr, DecidableEq

/-- The two index names read from the environment
(`MEILI_INDEX_CIVIL`, `MEILI_INDEX_CRIMINAL`; defaults `"civil-articles"`,
`"criminal-articles"`). -/
structure Config where
  civilIndex : String
  criminalIndex : String
deriving Repr, DecidableEq

/-- The environment-default configuration. -/
def defaultConfig : Config :=
  { civilIndex := "civil-articles", criminalIndex := "criminal-articles" }

/-- `search_service.get_indexes_by_scope`. -/
def get_indexes_by_scope (cfg : Config) (scope : String) : List String :=
  if scope = "all" then [cfg.civilIndex, cfg.criminalIndex]
  else if scope = "civil" then [cfg.civilIndex]
  else if scope = "criminal" then [cfg.criminalIndex]
  else []

/-- `search_service.normalize_hit`.  The Python guard `if not law_code`
treats both a missing key and a falsy value (`None`/`""`) the same, hence the
`getD "" = ""` test. -/
def normalize_hit (cfg : Config) (hit : RawHit) (indexName : String) : NormHit :=
  { lawCode :=
      if hit.lawCode.getD "" = "" then
        if indexName = cfg.civilIndex then "CIVIL_CODE"
        else if indexName = cfg.criminalIndex then "CRIMINAL_CODE"
        else "UNKNOWN"
      else hit.lawCode.getD ""
    index := indexName
    articleNo := hit.articleNo.getD 0
    articleSubNo := hit.articleSubNo.getD 0
    joCode := hit.joCode.getD ""
    heading := hit.heading.getD ""
    body := hit.body.getD ""
    rankingScore := hit.rankingScore }

/-! ## The Rescorer (`search_service.rescore`) -/

/-- Python's substring test `needle in hay`, on character lists. -/
def hasSubstr (needle : List Char) : List Char → Bool
  | [] => needle.isEmpty
  | c :: t => needle.isPrefixOf (c :: t) || hasSubstr needle t

/-- Python `needle in hay` on strings. -/
def strContains (hay needle : String) : Bool := hasSubstr needle.data hay.data

/-- Model of Python `str.lower()` (characterwise; only its idempotence on the
strings of the concrete scenarios matters for the claims below). -/
def pyLower (s : String) : String := String.mk (s.data.map Char.toLower)

/-- Python `f"{n:06d}"` for a non-negative `n`: decimal digits left-padded
with `'0'` to at least six characters. -/
def zeroPad6 (n : Nat) : String :=
  String.mk (List.replicate (6 - (toString n).length) '0') ++ toString n

/-- The `+900` exact-citation bonus of `rescore` (source lines 140–143):
the hit's `articleNo` equals the query's, and either the query has no
sub-article number or the hit's `articleSubNo` equals it. -/
def citationBonus (info : ArticleQuery) (hit : NormHit) : Rat :=
  match info with
  | .keyword _ => 0
  | .citation n m _ =>
    if hit.articleNo = (n : Int) ∧
        (m = none ∨ some hit.articleSubNo = m.map fun sub => (sub : Int))
    then 900 else 0

/-- The `+1000` joCode bonus of `rescore` (source lines 145–152): the hit's
`joCode` textually contains `제{N}조` (or equals the zero-padded six-digit
form of `N`) when the query has no sub-article number, and contains
`제{N}조의{M}` when it does.  (The `article_no = None` branch of the f-string
is unreachable: `is_article_query` implies `article_no` is set.) -/
def joCodeBonus (info : ArticleQuery) (hit : NormHit) : Rat :=
  match info with
  | .keyword _ => 0
  | .citation n m _ =>
    match m with
    | none =>
      if strContains hit.joCode ("제" ++ toString n ++ "조") ∨ hit.joCode = zeroPad6 n
      then 1000 else 0
    | some sub =>
      if strContains hit.joCode ("제" ++ toString n ++ "조의" ++ toString sub)
      then 1000 else 0

/-- The `+50` heading bonus of `rescore` (source lines 154–158): the
lower-cased query appears in the lower-cased heading. -/
def headingBonus (hit : NormHit) (query : String) : Rat :=
  if strContains (pyLower hit.heading) (pyLower query) then 50 else 0

/-- Total bonus accumulated by `rescore`'s `bonus` variable: the source adds
the three contributions one by one, which is their sum. -/
def rescoreBonus (hit : NormHit) (query : String) : Rat :=
  citationBonus (normalize_article_query query.data) hit
    + joCodeBonus (normalize_article_query query.data) hit
    + headingBonus hit query

/-- `search_service.rescore` on a normalized hit.  The normalized dict always
carries the `_rankingScore` key, so `hit.get("_rankingScore", 0.0)` returns
the stored value — which is `None` for a hit whose engine score was absent;
`None + bonus` then raises `TypeError`, modelled as `none`. -/
def rescore (hit : NormHit) (query : String) : Option Rat :=
  match hit.rankingScore with
  | some b => some (b + rescoreBonus hit query)
  | none => none

/-! ## The Fan-out Coordinator (`search_service.multi_index_search`) -/

/-- One request body sent to `search_in_index` (index name plus the payload
fields that `multi_index_search` chooses). -/
structure SearchRequest where
  index : String
  q : String
  limit : Nat
  offset : Nat
  strict : Bool
  filter : Option String
deriving Repr, DecidableEq

/-- The per-scope filter expression (source lines 231–236). -/
def scopeFilter (scope : String) : Option String :=
  if scope = "civil" then some "lawCode = CIVIL_CODE"
  else if scope = "criminal" then some "lawCode = CRIMINAL_CODE"
  else none

/-- The request `multi_index_search` issues for one index: overfetch
`limit * 2`, shared offset/strict flag, and the scope filter. -/
def mkRequest (scope query : String) (limit offset : Nat) (strict : Bool)
    (idx : String) : SearchRequest :=
  { index := idx, q := query, limit := limit * 2, offset := offset,
    strict := strict, filter := scopeFilter scope }

/-- The full list of per-index requests dispatched for one fan-out. -/
def dispatched (cfg : Config) (scope query : String) (limit offset : Nat)
    (strict : Bool) : List SearchRequest :=
  (get_indexes_by_scope cfg scope).map (mkRequest scope query limit offset strict)

/-- Collection loop of `multi_index_search` (source lines 239–257): a failed
call (`HTTPException`, modelled as `Except.error`) contributes nothing and
the loop continues; a successful call appends its normalized hits. -/
def collectHits (cfg : Config) (resp : SearchRequest → Except String (List RawHit))
    (scope query : String) (limit offset : Nat) (strict : Bool) : List NormHit :=
  (dispatched cfg scope query limit offset strict).foldl
    (fun acc r =>
      match resp r with
      | .error _ => acc
      | .ok hits => acc ++ hits.map (fun h => normalize_hit cfg h r.index))
    []

/-- Rescoring loop of `multi_index_search` (source lines 260–261): each hit
gets its `_appScore`; the first hit with an absent base score raises
`TypeError` (modelled as `Except.error`), aborting the request. -/
def rescoreAll (query : String) : List NormHit → Except String (List (NormHit × Rat))
  | [] => .ok []
  | h :: t =>
    match rescore h query with
    | none => .error "TypeError: unsupported operand type(s)"
    | some s =>
      match rescoreAll query t with
      | .error e => .error e
      | .ok rest => .ok ((h, s) :: rest)

/-- The sort of `multi_index_search` (source line 264):
`all_hits.sort(key=..., reverse=True)` is a stable sort, descending by
`_appScore` alone; `mergeSort` with `b.2 ≤ a.2` is exactly that. -/
def sortHits (l : List (NormHit × Rat)) : List (NormHit × Rat) :=
  l.mergeSort (fun a b => decide (b.2 ≤ a.2))

/-- `search_service.multi_index_search`, parametrized by the per-index
response oracle `resp`. -/
def multi_index_search (cfg : Config)
    (resp : SearchRequest → Except String (List RawHit))
    (scope query : String) (limit offset : Nat) (strict : Bool) :
    Except String (List (NormHit × Rat)) :=
  if get_indexes_by_scope cfg scope = [] then .ok []
  else
    match rescoreAll query (collectHits cfg resp scope query limit offset strict) with
    | .error e => .error e
    | .ok scored => .ok ((sortHits scored).take limit)

/-! ## General lemmas about the service definitions -/

lemma citationBonus_nonneg (info : ArticleQuery) (hit : NormHit) :
    0 ≤ citationBonus info hit := by
  cases info with
  | citation n m o =>
    simp only [citationBonus]
    split <;> norm_num
  | keyword o => simp [citationBonus]

lemma joCodeBonus_nonneg (info : ArticleQuery) (hit : NormHit) :
    0 ≤ joCodeBonus info hit := by
  cases info with
  | citation n m o =>
    cases m with
    | none =>
      simp only [joCodeBonus]
      split <;> norm_num
    | some sub =>
      simp only [joCodeBonus]
      split <;> norm_num
  | keyword o => simp [joCodeBonus]

lemma headingBonus_nonneg (hit : NormHit) (query : String) :
    0 ≤ headingBonus hit query := by
  unfold headingBonus
  split <;> norm_num

lemma rescoreBonus_nonneg (hit : NormHit) (query : String) :
    0 ≤ rescoreBonus hit query := by
  unfold rescoreBonus
  have h1 := citationBonus_nonneg (normalize_article_query query.data) hit
  have h2 := joCodeBonus_nonneg (normalize_article_query query.data) hit
  have h3 := headingBonus_nonneg hit query
  positivity

/-- Python's stable `sort(..., reverse=True)` on a two-element list. -/
lemma mergeSort_pair {α : Type} (le : α → α → Bool) (x y : α) :
    [x, y].mergeSort le = if le x y then [x, y] else [y, x] := by
  rw [List.mergeSort]
  simp [List.splitInTwo, List.merge]

/-- The collection loop ignores indexes whose call failed. -/
lemma foldl_collect_errors (cfg : Config)
    (resp : SearchRequest → Except String (List RawHit))
    {reqs : List SearchRequest} (h : ∀ r ∈ reqs, ∃ e, resp r = .error e) :
    ∀ acc, reqs.foldl
      (fun acc r =>
        match resp r with
        | .error _ => acc
        | .ok hits => acc ++ hits.map (fun h => normalize_hit cfg h r.index))
      acc = acc := by
  induction reqs with
  | nil =>
    intro acc
    rfl
  | cons r t ih =>
    intro acc
    obtain ⟨e, he⟩ := h r (by simp)
    simp only [List.foldl_cons, he]
    exact ih (fun r hr => h r (by simp [hr])) acc

/-- When every collected hit carries a base score, the rescoring loop
succeeds and returns the hits in order, each paired with its score. -/
lemma rescoreAll_ok_of_scores (query : String) :
    ∀ {l : List NormHit}, (∀ h ∈ l, h.rankingScore.isSome) →
    ∃ out, rescoreAll query l = .ok out ∧ out.map Prod.fst = l ∧ out.length = l.length := by
  intro l
  induction l with
  | nil =>
    intro _
    exact ⟨[], rfl, rfl, rfl⟩
  | cons h t ih =>
    intro hall
    obtain ⟨b, hb⟩ := Option.isSome_iff_exists.mp (hall h (by simp))
    obtain ⟨out, hout, hmap, hlen⟩ := ih (fun x hx => hall x (by simp [hx]))
    refine ⟨(h, b + rescoreBonus h query) :: out, ?_, by simp [hmap], by simp [hlen]⟩
    unfold rescoreAll
    rw [show rescore h query = some (b + rescoreBonus h query) from by
      unfold rescore
      rw [hb]]
    rw [hout]

/-! ## C1: score monotonicity -/

/-- A normalized hit whose engine base score is absent
(`_rankingScore = None`). -/
def c1Hit : NormHit :=
  { lawCode := "CIVIL_CODE", index := "civil-articles", articleNo := 218,
    articleSubNo := 0, joCode := "", heading := "", body := "",
    rankingScore := none }

/-- C1 counterexample: for the normalized hit `c1Hit`, whose base score is
absent, `rescore` does not return any application score at all (it raises
`TypeError`), so in particular no score `≥ 0.0` is produced — the claim's
"taking 0.0 when the base score is absent" fails on the code. -/
theorem score_monotonicity_counterexample :
    rescore c1Hit "218" = none ∧
    ¬ ∃ s : Rat, rescore c1Hit "218" = some s ∧ (0 : Rat) ≤ s := by
  refine ⟨rfl, ?_⟩
  rintro ⟨s, hs, -⟩
  rw [show rescore c1Hit "218" = none from rfl] at hs
  cases hs

/-- C1 (amended): for every normalized hit whose base score is *present*,
rescoring returns `baseScore + bonus` where the bonus is a sum of three
non-negative contributions, hence `appScore ≥ baseScore`.  (When the base
score is absent the Rescorer raises `TypeError` instead of defaulting to
0.0 — see the counterexample.) -/
theorem score_monotonicity (hit : NormHit) (query : String) (b : Rat)
    (h : hit.rankingScore = some b) :
    rescore hit query = some (b + rescoreBonus hit query) ∧
    b ≤ b + rescoreBonus hit query ∧
    0 ≤ citationBonus (normalize_article_query query.data) hit ∧
    0 ≤ joCodeBonus (normalize_article_query query.data) hit ∧
    0 ≤ headingBonus hit query := by
  refine ⟨?_, ?_, citationBonus_nonneg _ _, joCodeBonus_nonneg _ _, headingBonus_nonneg _ _⟩
  · unfold rescore
    rw [h]
  · exact le_add_of_nonneg_right (rescoreBonus_nonneg hit query)

/-- Witness for C1's amended theorem at a concrete scored hit. -/
theorem score_monotonicity_witness :
    rescore { c1Hit with rankingScore := some 1 } "218"
      = some (1 + rescoreBonus { c1Hit with rankingScore := some 1 } "218") ∧
    (1 : Rat) ≤ 1 + rescoreBonus { c1Hit with rankingScore := some 1 } "218" ∧
    0 ≤ citationBonus (normalize_article_query "218".data)
      { c1Hit with rankingScore := some 1 } ∧
    0 ≤ joCodeBonus (normalize_article_query "218".data)
      { c1Hit with rankingScore := some 1 } ∧
    0 ≤ headingBonus { c1Hit with rankingScore := some 1 } "218" :=
  score_monotonicity { c1Hit with rankingScore := some 1 } "218" 1 rfl

/-! ## C3: merge order -/

/-- A hit with article number 5 and base score 1; the keyword query `"법"`
earns it no bonus, so its application score is also 1. -/
def c3HitA : NormHit :=
  { lawCode := "CIVIL_CODE", index := "civil-articles", articleNo := 5,
    articleSubNo := 0, joCode := "", heading := "", body := "",
    rankingScore := some 1 }

/-- Like `c3HitA` but with article number 3. -/
def c3HitB : NormHit := { c3HitA with articleNo := 3 }

/-- C3 counterexample: two hits with identical application score (1/2, as
computed by the Rescorer for query `"법"`) and identical base score keep
their collection order under the Coordinator's sort, in both input orders —
they are *not* reordered by ascending `articleNo` (3 before 5): the sort key
is `_appScore` alone and Python's sort is stable. -/
theorem merge_order_counterexample :
    c3HitB.articleNo < c3HitA.articleNo ∧
    rescore c3HitA "법" = some 1 ∧
    rescore c3HitB "법" = some 1 ∧
    c3HitA.rankingScore = c3HitB.rankingScore ∧
    sortHits [(c3HitA, 1), (c3HitB, 1)] = [(c3HitA, 1), (c3HitB, 1)] ∧
    sortHits [(c3HitB, 1), (c3HitA, 1)] = [(c3HitB, 1), (c3HitA, 1)] := by
  have hb : ∀ hit : NormHit, hit.heading = "" → rescoreBonus hit "법" = 0 := by
    intro hit hh
    rw [rescoreBonus,
      show normalize_article_query "법".data = .keyword "법".data from by decide]
    simp only [citationBonus, joCodeBonus, headingBonus, hh]
    rw [if_neg (by decide)]
    norm_num
  refine ⟨by decide, ?_, ?_, rfl, ?_, ?_⟩
  · rw [show rescore c3HitA "법" = some (1 + rescoreBonus c3HitA "법") from rfl,
      hb c3HitA rfl]
    norm_num
  · rw [show rescore c3HitB "법" = some (1 + rescoreBonus c3HitB "법") from rfl,
      hb c3HitB rfl]
    norm_num
  · rw [sortHits, mergeSort_pair, if_pos (by decide)]
  · rw [sortHits, mergeSort_pair, if_pos (by decide)]

/-- C3 (amended): the Coordinator's sort is a *stable* descending sort by
application score alone — the output is a permutation of the collected
sequence, is sorted descending by `_appScore`, and two hits with equal
`_appScore` keep their collection order (no tie-breaking on base score or
`(articleNo, articleSubNo)`). -/
theorem merge_order_amended (l : List (NormHit × Rat)) :
    List.Perm (sortHits l) l ∧
    (sortHits l).Pairwise (fun a b => b.2 ≤ a.2) ∧
    (∀ a b : NormHit × Rat, [a, b].Sublist l → a.2 = b.2 →
      [a, b].Sublist (sortHits l)) := by
  have htrans : ∀ a b c : NormHit × Rat,
      decide (b.2 ≤ a.2) → decide (c.2 ≤ b.2) → decide (c.2 ≤ a.2) := by
    intro a b c hab hbc
    rw [decide_eq_true_eq] at *
    exact le_trans hbc hab
  have htotal : ∀ a b : NormHit × Rat,
      decide (b.2 ≤ a.2) || decide (a.2 ≤ b.2) := by
    intro a b
    simp only [Bool.or_eq_true, decide_eq_true_eq]
    exact le_total b.2 a.2
  refine ⟨List.mergeSort_perm l _, ?_, ?_⟩
  · exact (List.sorted_mergeSort htrans htotal l).imp fun hab => of_decide_eq_true hab
  · intro a b hsub heq
    exact List.pair_sublist_mergeSort htrans htotal (by simp [heq]) hsub

/-- Witness for C3's amended theorem: two equal-score hits keep their
order. -/
theorem merge_order_amended_witness :
    [(c3HitA, (1 : Rat)), (c3HitB, 1)].Sublist
      (sortHits [(c3HitA, 1), (c3HitB, 1)]) :=
  (merge_order_amended [(c3HitA, 1), (c3HitB, 1)]).2.2 _ _
    (List.Sublist.refl _) rfl

/-! ## C4: citation bonus sub-article discrimination -/

/-- A hit at article 218, sub-article 1. -/
def c4Hit1 : NormHit :=
  { lawCode := "CIVIL_CODE", index := "civil-articles", articleNo := 218,
    articleSubNo := 1, joCode := "", heading := "", body := "",
    rankingScore := some 1 }

/-- A hit at article 218, sub-article 2. -/
def c4Hit2 : NormHit := { c4Hit1 with articleSubNo := 2 }

/-- C4.  The `+900` citation bonus is awarded exactly when the hit's
`articleNo` equals the query's and either the query carries no sub-article
number (any hit sub-article accepted) or the hit's `articleSubNo` equals the
query's; for a keyword query it is never awarded; and otherwise it is 0.
In particular, for the classified query `"제218조의2"`, the hit
`(218, 1)` gets no citation bonus while `(218, 2)` gets 900. -/
theorem citation_bonus_correct :
    (∀ (hit : NormHit) (n : Nat) (m : Option Nat) (o : List Char),
      citationBonus (.citation n m o) hit = 900 ↔
        hit.articleNo = (n : Int) ∧
          (m = none ∨ ∃ sub, m = some sub ∧ hit.articleSubNo = (sub : Int))) ∧
    (∀ (hit : NormHit) (n : Nat) (m : Option Nat) (o : List Char),
      citationBonus (.citation n m o) hit = 900 ∨
        citationBonus (.citation n m o) hit = 0) ∧
    (∀ (hit : NormHit) (o : List Char), citationBonus (.keyword o) hit = 0) ∧
    normalize_article_query "제218조의2".data
      = .citation 218 (some 2) "제218조의2".data ∧
    citationBonus (normalize_article_query "제218조의2".data) c4Hit1 = 0 ∧
    citationBonus (normalize_article_query "제218조의2".data) c4Hit2 = 900 := by
  have hcond : ∀ (hit : NormHit) (m : Option Nat),
      (m = none ∨ some hit.articleSubNo = m.map fun sub => (sub : Int)) ↔
      (m = none ∨ ∃ sub, m = some sub ∧ hit.articleSubNo = (sub : Int)) := by
    intro hit m
    cases m with
    | none => simp
    | some sub =>
      constructor
      · rintro (h | h)
        · cases h
        · refine Or.inr ⟨sub, rfl, ?_⟩
          simpa using h
      · rintro (h | ⟨sub', hs, hv⟩)
        · cases h
        · obtain rfl : sub' = sub := by simpa using hs.symm
          refine Or.inr ?_
          simpa using hv
  refine ⟨?_, ?_, ?_, by decide, ?_, ?_⟩
  · intro hit n m o
    simp only [citationBonus]
    split
    · rename_i hcd
      simp only [eq_self_iff_true, true_iff]
      exact ⟨hcd.1, (hcond hit m).mp hcd.2⟩
    · rename_i hcd
      constructor
      · intro h
        norm_num at h
      · intro h
        exact absurd ⟨h.1, (hcond hit m).mpr h.2⟩ hcd
  · intro hit n m o
    simp only [citationBonus]
    split
    · exact Or.inl rfl
    · exact Or.inr rfl
  · intro hit o
    simp [citationBonus]
  · rw [show normalize_article_query "제218조의2".data
        = .citation 218 (some 2) "제218조의2".data from by decide]
    simp only [citationBonus]
    rw [if_neg (by decide)]
  · rw [show normalize_article_query "제218조의2".data
        = .citation 218 (some 2) "제218조의2".data from by decide]
    simp only [citationBonus]
    rw [if_pos (by decide)]

/-! ## C5: citation-code bonus and additivity -/

/-- A hit that matches query `"제218조"` both numerically (`articleNo = 218`)
and textually (`joCode` contains `"제218조"`). -/
def c5Hit : NormHit :=
  { lawCode := "CIVIL_CODE", index := "civil-articles", articleNo := 218,
    articleSubNo := 0, joCode := "제218조", heading := "", body := "",
    rankingScore := some 1 }

/-- C5.  The `+1000` joCode bonus is awarded exactly when the hit's citation
code contains the canonical citation string built from the query's numbers
(`제{N}조`, or the zero-padded six-digit form, when no sub-article;
`제{N}조의{M}` with one); the application score decomposes as base plus the
three bonuses added independently; and a hit matching both the numeric and
the textual condition receives both 900 and 1000 on top of its base score. -/
theorem citation_code_bonus_additive :
    (∀ (hit : NormHit) (n : Nat) (o : List Char),
      joCodeBonus (.citation n none o) hit = 1000 ↔
        (strContains hit.joCode ("제" ++ toString n ++ "조") = true ∨
          hit.joCode = zeroPad6 n)) ∧
    (∀ (hit : NormHit) (n sub : Nat) (o : List Char),
      joCodeBonus (.citation n (some sub) o) hit = 1000 ↔
        strContains hit.joCode ("제" ++ toString n ++ "조의" ++ toString sub) = true) ∧
    (∀ (hit : NormHit) (query : String),
      rescore hit query = hit.rankingScore.map fun b =>
        b + (citationBonus (normalize_article_query query.data) hit
          + joCodeBonus (normalize_article_query query.data) hit
          + headingBonus hit query)) ∧
    citationBonus (normalize_article_query "제218조".data) c5Hit = 900 ∧
    joCodeBonus (normalize_article_query "제218조".data) c5Hit = 1000 ∧
    rescore c5Hit "제218조" = some (1 + 900 + 1000) := by
  have hcls : normalize_article_query "제218조".data
      = .citation 218 none "제218조".data := by decide
  have hcit : citationBonus (normalize_article_query "제218조".data) c5Hit = 900 := by
    rw [hcls]
    simp only [citationBonus]
    rw [if_pos (by decide)]
  have hjo : joCodeBonus (normalize_article_query "제218조".data) c5Hit = 1000 := by
    rw [hcls]
    simp only [joCodeBonus]
    rw [if_pos (Or.inl (by decide))]
  refine ⟨?_, ?_, ?_, hcit, hjo, ?_⟩
  · intro hit n o
    simp only [joCodeBonus]
    split
    · rename_i hcd
      simp only [eq_self_iff_true, true_iff]
      exact hcd
    · rename_i hcd
      constructor
      · intro h
        norm_num at h
      · intro h
        exact absurd h hcd
  · intro hit n sub o
    simp only [joCodeBonus]
    split
    · rename_i hcd
      simp only [eq_self_iff_true, true_iff]
      exact hcd
    · rename_i hcd
      constructor
      · intro h
        norm_num at h
      · intro h
        exact absurd h hcd
  · intro hit query
    cases hrs : hit.rankingScore with
    | none =>
      unfold rescore
      rw [hrs]
      rfl
    | some b =>
      unfold rescore
      rw [hrs]
      rfl
  · rw [show rescore c5Hit "제218조"
        = some (1 + rescoreBonus c5Hit "제218조") from rfl]
    rw [rescoreBonus, hcit, hjo,
      show headingBonus c5Hit "제218조" = 0 from by
        unfold headingBonus
        rw [if_neg (by decide)]]
    norm_num

/-! ## C6: absent base score -/

/-- A raw Meilisearch hit without a `_rankingScore` key. -/
def c6Raw : RawHit :=
  { lawCode := none, articleNo := some 218, articleSubNo := none,
    joCode := none, heading := none, body := none, rankingScore := none }

/-- C6 (code bug): normalizing a raw hit with an absent engine score stores
`None` under the always-present `_rankingScore` key, and rescoring that
normalized hit then *fails* (`None + bonus` raises `TypeError`, modelled as
`none`) instead of treating the absent score as 0.0 as the spec requires —
the `0.0` default of `hit.get("_rankingScore", 0.0)` is dead for normalized
hits because the key is always present. -/
theorem absent_base_score_bug :
    (normalize_hit defaultConfig c6Raw "civil-articles").rankingScore = none ∧
    rescore (normalize_hit defaultConfig c6Raw "civil-articles") "218" = none := by
  exact ⟨rfl, rfl⟩

/-! ## C7: partial and total failure tolerance -/

/-- C7.  (a) When every dispatched per-index call fails, the fan-out returns
the empty hit list, not an error.  (b) With the two indexes of scope
`"all"`, when the civil-index call fails and the criminal-index call returns
exactly three hits (each carrying a base score), the merged result is
`.ok` with exactly those three hits (normalized), count 3, no error. -/
theorem partial_failure_tolerance :
    (∀ (cfg : Config) (resp : SearchRequest → Except String (List RawHit))
        (scope query : String) (limit offset : Nat) (strict : Bool),
      (∀ r ∈ dispatched cfg scope query limit offset strict, ∃ e, resp r = .error e) →
      multi_index_search cfg resp scope query limit offset strict = .ok []) ∧
    (∀ (cfg : Config) (resp : SearchRequest → Except String (List RawHit))
        (query : String) (limit offset : Nat) (strict : Bool) (e : String)
        (h1 h2 h3 : RawHit),
      resp (mkRequest "all" query limit offset strict cfg.civilIndex) = .error e →
      resp (mkRequest "all" query limit offset strict cfg.criminalIndex) = .ok [h1, h2, h3] →
      h1.rankingScore.isSome → h2.rankingScore.isSome → h3.rankingScore.isSome →
      3 ≤ limit →
      ∃ out, multi_index_search cfg resp "all" query limit offset strict = .ok out ∧
        out.length = 3 ∧
        List.Perm (out.map Prod.fst)
          ([h1, h2, h3].map fun h => normalize_hit cfg h cfg.criminalIndex)) := by
  constructor
  · intro cfg resp scope query limit offset strict hfail
    unfold multi_index_search
    by_cases hidx : get_indexes_by_scope cfg scope = []
    · rw [if_pos hidx]
    · rw [if_neg hidx]
      have hcol : collectHits cfg resp scope query limit offset strict = [] := by
        unfold collectHits
        exact foldl_collect_errors cfg resp hfail []
      rw [hcol]
      simp [rescoreAll, sortHits]
  · intro cfg resp query limit offset strict e h1 h2 h3 he hok hs1 hs2 hs3 hlim
    have hidx : get_indexes_by_scope cfg "all" = [cfg.civilIndex, cfg.criminalIndex] := rfl
    have hcol : collectHits cfg resp "all" query limit offset strict
        = [h1, h2, h3].map (fun h => normalize_hit cfg h cfg.criminalIndex) := by
      unfold collectHits dispatched
      rw [hidx]
      simp only [List.map_cons, List.map_nil, List.foldl_cons, List.foldl_nil]
      rw [he, hok]
      simp [mkRequest]
    have hscores : ∀ h' ∈ collectHits cfg resp "all" query limit offset strict,
        h'.rankingScore.isSome := by
      rw [hcol]
      intro h' hh'
      simp only [List.mem_map] at hh'
      obtain ⟨h, hmem, rfl⟩ := hh'
      show h.rankingScore.isSome
      simp only [List.mem_cons, List.not_mem_nil, or_false] at hmem
      rcases hmem with rfl | rfl | rfl
      · exact hs1
      · exact hs2
      · exact hs3
    obtain ⟨out0, hresc, hmap, hlen⟩ := rescoreAll_ok_of_scores query hscores
    have hl3 : (sortHits out0).length = 3 := by
      rw [sortHits, List.length_mergeSort, hlen, hcol]
      simp
    refine ⟨sortHits out0, ?_, hl3, ?_⟩
    · unfold multi_index_search
      rw [if_neg (by rw [hidx]; simp), hresc]
      show Except.ok ((sortHits out0).take limit) = Except.ok (sortHits out0)
      rw [List.take_of_length_le (by rw [hl3]; exact hlim)]
    · have hperm := (List.mergeSort_perm out0
        (fun a b : NormHit × Rat => decide (b.2 ≤ a.2))).map Prod.fst
      rw [hmap, hcol] at hperm
      exact hperm

/-- A raw hit carrying a base score, for C7's witness scenario. -/
def c7Raw : RawHit :=
  { lawCode := none, articleNo := some 7, articleSubNo := none,
    joCode := some "000007", heading := some "절도", body := some "...",
    rankingScore := some 1 }

/-- The concrete oracle of C7's witness scenario: the criminal index returns
three hits, every other call fails. -/
def c7Resp : SearchRequest → Except String (List RawHit) :=
  fun r =>
    if r.index = "criminal-articles" then .ok [c7Raw, c7Raw, c7Raw]
    else .error "IndexUnavailable"

/-- Witness for C7: both parts applied to concrete oracles — a total outage
yields `.ok []`, and the one-failed/one-successful scenario yields exactly
the three normalized hits. -/
theorem partial_failure_tolerance_witness :
    multi_index_search defaultConfig (fun _ => .error "down") "all" "218" 10 0 false
      = .ok [] ∧
    (∃ out, multi_index_search defaultConfig c7Resp "all" "218" 10 0 false = .ok out ∧
      out.length = 3 ∧
      List.Perm (out.map Prod.fst)
        ([c7Raw, c7Raw, c7Raw].map fun h =>
          normalize_hit defaultConfig h defaultConfig.criminalIndex)) :=
  ⟨partial_failure_tolerance.1 defaultConfig (fun _ => .error "down") "all" "218" 10 0 false
      (fun r _ => ⟨"down", rfl⟩),
   partial_failure_tolerance.2 defaultConfig c7Resp "218" 10 0 false "IndexUnavailable"
      c7Raw c7Raw c7Raw rfl rfl rfl rfl rfl (by norm_num)⟩

/-! ## C8: scope resolution -/

/-- C8 counterexample: the scope tokens `"civil_procedure"` and
`"criminal_procedure"` (members of the API's `SearchScope` enumeration) do
*not* map to a law-family index — `get_indexes_by_scope` falls through to
the unknown-scope branch and returns the empty list. -/
theorem scope_resolution_counterexample :
    get_indexes_by_scope defaultConfig "civil_procedure" = [] ∧
    get_indexes_by_scope defaultConfig "criminal_procedure" = [] ∧
    ¬ ∃ i, get_indexes_by_scope defaultConfig "civil_procedure" = [i] := by
  refine ⟨rfl, rfl, ?_⟩
  rintro ⟨i, hi⟩
  rw [show get_indexes_by_scope defaultConfig "civil_procedure" = [] from rfl] at hi
  cases hi

/-- C8 (amended): the Scope Resolver maps `"all"` to the two configured law
indexes in a fixed stable order, `"civil"` and `"criminal"` each to their one
index, and *every* other token — including `"civil_procedure"` and
`"criminal_procedure"` — to the empty index list, for which the Fan-out
Coordinator returns zero hits rather than an error. -/
theorem scope_resolution_amended :
    (∀ cfg : Config,
      get_indexes_by_scope cfg "all" = [cfg.civilIndex, cfg.criminalIndex] ∧
      get_indexes_by_scope cfg "civil" = [cfg.civilIndex] ∧
      get_indexes_by_scope cfg "criminal" = [cfg.criminalIndex]) ∧
    (∀ (cfg : Config) (scope : String),
      scope ≠ "all" → scope ≠ "civil" → scope ≠ "criminal" →
      get_indexes_by_scope cfg scope = []) ∧
    (∀ (cfg : Config) (resp : SearchRequest → Except String (List RawHit))
        (scope query : String) (limit offset : Nat) (strict : Bool),
      get_indexes_by_scope cfg scope = [] →
      multi_index_search cfg resp scope query limit offset strict = .ok []) := by
  refine ⟨fun cfg => ⟨rfl, rfl, rfl⟩, ?_, ?_⟩
  · intro cfg scope h1 h2 h3
    unfold get_indexes_by_scope
    rw [if_neg h1, if_neg h2, if_neg h3]
  · intro cfg resp scope query limit offset strict hidx
    unfold multi_index_search
    rw [if_pos hidx]

/-- Witness for C8's amended theorem at the concrete unknown scope
`"civil_procedure"`. -/
theorem scope_resolution_amended_witness :
    get_indexes_by_scope defaultConfig "civil_procedure" = [] ∧
    multi_index_search defaultConfig (fun _ => .ok [c7Raw]) "civil_procedure"
      "218" 10 0 false = .ok [] :=
  ⟨scope_resolution_amended.2.1 defaultConfig "civil_procedure"
      (by decide) (by decide) (by decide),
   scope_resolution_amended.2.2 defaultConfig (fun _ => .ok [c7Raw])
      "civil_procedure" "218" 10 0 false
      (scope_resolution_amended.2.1 defaultConfig "civil_procedure"
        (by decide) (by decide) (by decide))⟩

/-! ## C10: per-scope filter expressions -/

lemma filter_of_mem_dispatched {cfg : Config} {scope query : String}
    {limit offset : Nat} {strict : Bool} {r : SearchRequest}
    (hr : r ∈ dispatched cfg scope query limit offset strict) :
    r.filter = scopeFilter scope := by
  obtain ⟨idx, -, rfl⟩ := List.mem_map.mp hr
  rfl

/-- C10.  Every request dispatched for scope `"civil"` carries the filter
`lawCode = CIVIL_CODE`, every request for `"criminal"` carries
`lawCode = CRIMINAL_CODE`, requests for `"all"` (and any other scope) carry
no filter, and within one fan-out all requests carry the same filter. -/
theorem scope_filter_correct :
    (∀ (cfg : Config) (query : String) (limit offset : Nat) (strict : Bool),
      (∀ r ∈ dispatched cfg "civil" query limit offset strict,
        r.filter = some "lawCode = CIVIL_CODE") ∧
      (∀ r ∈ dispatched cfg "criminal" query limit offset strict,
        r.filter = some "lawCode = CRIMINAL_CODE") ∧
      (∀ r ∈ dispatched cfg "all" query limit offset strict, r.filter = none)) ∧
    (∀ (cfg : Config) (scope query : String) (limit offset : Nat) (strict : Bool),
      scope ≠ "civil" → scope ≠ "criminal" →
      ∀ r ∈ dispatched cfg scope query limit offset strict, r.filter = none) ∧
    (∀ (cfg : Config) (scope query : String) (limit offset : Nat) (strict : Bool)
        (r r' : SearchRequest),
      r ∈ dispatched cfg scope query limit offset strict →
      r' ∈ dispatched cfg scope query limit offset strict →
      r.filter = r'.filter) := by
  refine ⟨?_, ?_, ?_⟩
  · intro cfg query limit offset strict
    refine ⟨?_, ?_, ?_⟩ <;>
      intro r hr <;>
      rw [filter_of_mem_dispatched hr] <;>
      rfl
  · intro cfg scope query limit offset strict h1 h2 r hr
    rw [filter_of_mem_dispatched hr]
    unfold scopeFilter
    rw [if_neg h1, if_neg h2]
  · intro cfg scope query limit offset strict r r' hr hr'
    rw [filter_of_mem_dispatched hr, filter_of_mem_dispatched hr']

/-- Witness for C10 at the concrete civil-scope request. -/
theorem scope_filter_correct_witness :
    (mkRequest "civil" "218" 10 0 false defaultConfig.civilIndex).filter
      = some "lawCode = CIVIL_CODE" :=
  (scope_filter_correct.1 defaultConfig "218" 10 0 false).1
    (mkRequest "civil" "218" 10 0 false defaultConfig.civilIndex)
    (by simp [dispatched, get_indexes_by_scope])

end LawSearch
